import Mathlib

/-!
Verification of the wvtest protocol tool (`wvtool.py`, `wvjunit.py`).

We shallowly embed the line classifier, the stream processor
(`WvTestProcessor`) and the JUnit escaping helpers, and prove the spec
claims about them.

Modelling conventions:
* Strings are Python `str`; whitespace (`\s`, `str.rstrip`) is modelled
  as the six ASCII whitespace characters (space, tab, newline, carriage
  return, vertical tab, form feed).  Unicode-only whitespace is outside
  the model.
* `time.time()` is modelled by an explicit rational `now` argument
  threaded through each operation; all clock samples inside one call of
  `processLine`/`append`/`done` read the same `now`.
* The configurable protocol line prefix `re_prefix` is the empty string
  (its value in the source), so the `prefix` capture group is always
  empty and is omitted from the records.
* The processor is modelled with JUnit XML recording enabled
  (`junit_xml` truthy), `show_progress = False`, no `logdir`, and the
  terminal in its no-tty default state (colors cleared, width 80).
-/

namespace WvTest

/-- ASCII part of Python's whitespace class used by `\s` and `str.rstrip`. -/
def pyIsSpace (c : Char) : Bool :=
  c == ' ' || c == '\t' || c == '\n' || c == '\r' || c == '\x0b' || c == '\x0c'

/-- Python `str.rstrip()`: drop trailing whitespace. -/
def pyRstrip (s : List Char) : List Char :=
  (s.reverse.dropWhile pyIsSpace).reverse

/-- Fields of a matched check line (class `WvCheckLine`): the description
(group `text`) and the outcome token (group `result`). -/
structure WvCheckLine where
  text : String
  result : String
deriving DecidableEq, Repr

/-- Fields of a matched section header line (class `WvTestingLine`): the
title (group `what`) and the location (group `where`; `whr` here because
`where` is a Lean keyword). -/
structure WvTestingLine where
  what : String
  whr : String
deriving DecidableEq, Repr

/-- The classified line: one of the four `WvLine` subclasses of the source
(`WvPlainLine`, `WvTestingLine`, `WvCheckLine`, `WvTagLine`). -/
inductive LogLine where
  | plain (line : String)
  | testing (t : WvTestingLine)
  | check (c : WvCheckLine)
  | tag (tg : String)
deriving DecidableEq, Repr

/-- Matcher for `WvCheckLine.re`, the Python regex
`!\s*(?P<text>.*?)\s+(?P<result>\S+)$` applied with `re.match`.
Backtracking semantics: the `result` group is the maximal trailing run of
non-whitespace characters, the `\s+` before it is the (necessarily
maximal) whitespace run preceding that token, and the lazy `text` group is
what remains after the greedy `\s*` strips its leading whitespace.  `.`
does not cross a newline, hence the `text` group must be newline free. -/
def checkMatch (s : List Char) : Option WvCheckLine :=
  match s with
  | [] => none
  | c :: rest =>
    if c = '!' then
      let rev := rest.reverse
      let tokRev := rev.takeWhile (fun c => !pyIsSpace c)
      let rest2 := rev.dropWhile (fun c => !pyIsSpace c)
      let wsRev := rest2.takeWhile pyIsSpace
      let midRev := rest2.dropWhile pyIsSpace
      let text := midRev.reverse.dropWhile pyIsSpace
      if tokRev.isEmpty || wsRev.isEmpty || text.contains '\n' then none
      else some ⟨String.mk text, String.mk tokRev.reverse⟩
    else none

/-- The five-character separator `" in "` of the section header regex. -/
def testingSep : List Char := ['"', ' ', 'i', 'n', ' ']

/-- Matcher for `WvTestingLine.re`, the Python regex
`Testing "(?P<what>.*)" in (?P<where>.*):$` applied with `re.match`.
The greedy `what` group extends to the last occurrence of `" in "` that
still leaves a `:`-terminated remainder; both `.*` groups are newline
free.  We enumerate the candidate split positions and take the last
(greediest) one. -/
def testingMatch (s : List Char) : Option WvTestingLine :=
  let n := s.length
  if s.take 9 = ("Testing \"").toList ∧ s.getLast? = some ':' then
    ((List.range n).filterMap (fun i =>
      let what := (s.drop 9).take (i - 9)
      let sep := (s.drop i).take 5
      let whr := (s.drop (i + 5)).take (n - 1 - (i + 5))
      if 9 ≤ i ∧ i + 5 ≤ n - 1 ∧ sep = testingSep ∧
          !what.contains '\n' ∧ !whr.contains '\n'
      then some ⟨String.mk what, String.mk whr⟩ else none)).getLast?
  else none

/-- Matcher for `WvTagLine.re`, the Python regex
`wvtest:\s*(?P<tag>.*)$` applied with `re.match`: the greedy `\s*` strips
whitespace after the marker and the newline-bounded `tag` group takes the
rest, which must reach the end of the line. -/
def tagMatch (s : List Char) : Option String :=
  if s.take 7 = ("wvtest:").toList then
    let tg := (s.drop 7).dropWhile pyIsSpace
    if tg.contains '\n' then none else some (String.mk tg)
  else none

/-- Matcher for `WvPlainLine.re`, the Python regex `(?P<line>.*)` applied
with `re.match`: always matches; the group stops at a newline. -/
def plainMatch (s : List Char) : Option String :=
  some (String.mk (s.takeWhile (fun c => c ≠ '\n')))

/-- The classification step of `WvTestProcessor.processLine`: `rstrip` the
raw line, then try the patterns in the fixed source order
`[WvCheckLine, WvTestingLine, WvTagLine, WvPlainLine]`; `none` is the
`"Non-matched line"` exception branch. -/
def classify (raw : String) : Option LogLine :=
  let line := pyRstrip raw.toList
  match checkMatch line with
  | some c => some (.check c)
  | none =>
    match testingMatch line with
    | some t => some (.testing t)
    | none =>
      match tagMatch line with
      | some tg => some (.tag tg)
      | none =>
        match plainMatch line with
        | some l => some (.plain l)
        | none => none

/-- The entity dictionary `escEntities` of `wvjunit.py`: control characters
1..31 other than tab, newline and carriage return map to their numeric
character reference, and the null character maps to the empty string
(removed, since XML forbids it). -/
def escEntities (c : Char) : Option String :=
  if c = '\x00' then some ""
  else if 1 ≤ c.toNat ∧ c.toNat ≤ 31 ∧ c ≠ '\t' ∧ c ≠ '\n' ∧ c ≠ '\r' then
    some ("&#" ++ toString c.toNat ++ ";")
  else none

/-- One character of `xml.sax.saxutils.escape(data, escEntities)`.  The
source replaces `&`, `>`, `<` first and then each entity key in turn; as
every entity key is a single control character, no entity value contains a
control character, and the `&` introduced by an entity value is written
after the `&`-replacement has run, the sequential replacement is the
per-character map below. -/
def escapeChar (c : Char) : String :=
  if c = '&' then "&amp;"
  else if c = '>' then "&gt;"
  else if c = '<' then "&lt;"
  else match escEntities c with
    | some r => r
    | none => String.mk [c]

/-- `xml.sax.saxutils.escape(data, escEntities)` on a character list. -/
def escapeL (s : List Char) : List Char :=
  (s.map (fun c => (escapeChar c).toList)).flatten

/-- `xml.sax.saxutils.escape(data, escEntities)`: the text-node encoding
used by `JUnitBase.escaped_values`. -/
def escape (s : String) : String :=
  String.mk (escapeL s.toList)

/-- One character of the extended entity map used by
`xml.sax.saxutils.quoteattr`: `escEntities` plus tab, newline and carriage
return mapped to their numeric references. -/
def quoteattrChar (c : Char) : String :=
  if c = '\t' then "&#9;"
  else if c = '\n' then "&#10;"
  else if c = '\r' then "&#13;"
  else escapeChar c

/-- `xml.sax.saxutils.quoteattr(data, escEntities)`: the attribute-position
encoding used by `JUnitBase.escaped_values`: escape with the extended
entity map, then wrap in quotes, preferring `"` and falling back to `'`
or to `&quot;` when quotes occur in the data. -/
def quoteattr (s : String) : String :=
  let d := String.mk ((s.toList.map (fun c => (quoteattrChar c).toList)).flatten)
  if d.toList.contains '"' then
    if d.toList.contains '\'' then
      "\"" ++ String.mk ((d.toList.map
        (fun c => if c = '"' then ("&quot;").toList else [c])).flatten) ++ "\""
    else "'" ++ d ++ "'"
  else "\"" ++ d ++ "\""

/-- `JUnitBase.escaped_values` restricted to one string field: the field is
encoded twice, independently — once with `escape` for text-node position
(attribute name unchanged) and once with `quoteattr` for attribute
position (attribute name suffixed `_attr`). -/
def escaped_values (v : String) : String × String :=
  (escape v, quoteattr v)

/-- `wvjunit.Failure` (the fields used by `wvtool.py`). -/
structure Failure where
  type : String
  message : String
deriving DecidableEq, Repr

/-- `wvjunit.Testcase` (the fields set by `wvtool.py`). -/
structure Testcase where
  classname : String
  name : String
  time : Rat
  failure : Option Failure
deriving DecidableEq, Repr

/-- `wvjunit.Testsuite` (the fields set by `wvtool.py`; `hostname` and
`timestamp` are environment queries outside the model). -/
structure Testsuite where
  tests : Nat
  failures : Nat
  errors : Nat
  name : String
  time : Rat
  testcases : List Testcase
  system_out : String
deriving DecidableEq, Repr

/-- `str()` of a classified line.  `WvPlainLine.__str__` returns the line;
`WvTestingLine.__str__` and `WvCheckLine.__str__` rebuild the protocol
text (the prefix is empty); `WvTagLine` inherits no `__str__`, so Python
falls back to the default object representation — an address-dependent,
always nonempty string, modelled by a fixed nonempty placeholder (only
its nonemptiness is ever observable in the processor logic). -/
def wvStr : LogLine → String
  | .plain l => l
  | .testing t => "Testing \"" ++ t.what ++ "\" in " ++ t.whr ++ ":"
  | .check c => "! " ++ c.text ++ " " ++ c.result
  | .tag _ => "<wvtool.WvTagLine object>"

/-- `WvCheckLine.is_success`: the outcome token is the literal `ok`. -/
def is_success (c : WvCheckLine) : Bool :=
  c.result == "ok"

/-- Python `rstrip(' .')` used by the two-argument `WvCheckLine`
constructor. -/
def rstripSpaceDot (s : String) : String :=
  String.mk ((s.toList.reverse.dropWhile (fun c => c == ' ' || c == '.')).reverse)

/-- `WvTestingLine.asWvCheckLine`: build a check line
`WvCheckLine('{where}  {what}', result)`; the constructor strips trailing
spaces and dots from the text. -/
def asWvCheckLine (t : WvTestingLine) (result : String) : WvCheckLine :=
  ⟨rstripSpaceDot (t.whr ++ "  " ++ t.what), result⟩

/-- `WvCheckLine.formated(highlight=True)` in the no-tty default state:
colors cleared and terminal width 80; `result_space = 10`,
`include_newlines = False`.  Pads the text with dots up to
`lines*width - result_space` characters. -/
def formated (c : WvCheckLine) : String :=
  let text := "! " ++ c.text ++ " "
  let width := 80
  let lines := (text.length + 10 + (width - 1)) / width
  let target := lines * width - 10
  let padded := text ++ String.mk (List.replicate (target - text.length) '.')
  padded ++ " " ++ c.result

/-- One stdout line produced by `entry.print()` for each entry, as called
from `WvTestProcessor.print` (colors cleared): a section header prints its
`str`, a check line prints its `formated` text, plain and tag lines print
their `str`. -/
def printLine : LogLine → String
  | .check c => formated c
  | e => wvStr e

/-- Verbosity constants of `WvTestProcessor.Verbosity`. -/
def vSUMMARY : Nat := 1

/-- `WvTestProcessor.Verbosity.NORMAL`. -/
def vNORMAL : Nat := 2

/-- `WvTestProcessor.Verbosity.VERBOSE`. -/
def vVERBOSE : Nat := 3

/-- The mutable state of `WvTestProcessor` (a `list` subclass: `entries`
is the inherited list contents).  JUnit recording is enabled; `output` is
the sequence of lines printed to standard output.  `testStartTime` is
unset before the first section opens (the Python attribute does not exist
yet); it is only read while a section is open, so it is modelled with a
default of 0. -/
structure WvTestProcessor where
  checkCount : Nat
  checkFailedCount : Nat
  testCount : Nat
  testFailedCount : Nat
  implicitTestTitle : Option WvTestingLine
  currentTest : Option WvTestingLine
  verbosity : Nat
  junitPfx : String
  junitTestcases : List Testcase
  junitTestsuites : List Testsuite
  entries : List LogLine
  testStartTime : Rat
  lastCheckTime : Option Rat
  output : List String
deriving DecidableEq, Repr

/-- `WvTestProcessor.__init__` followed by `setImplicitTestTitle` when a
title is supplied (`junit_prefix` as given; counters zeroed). -/
def initProcessor (verbosity : Nat) (junitPfx : String)
    (implicit : Option WvTestingLine) : WvTestProcessor :=
  { checkCount := 0, checkFailedCount := 0, testCount := 0,
    testFailedCount := 0, implicitTestTitle := implicit, currentTest := none,
    verbosity := verbosity, junitPfx := junitPfx, junitTestcases := [],
    junitTestsuites := [], entries := [], testStartTime := 0,
    lastCheckTime := none, output := [] }

/-- `WvTestProcessor.plainText`: newline-join the `str` of every logged
entry, plus a trailing newline. -/
def plainText (entries : List LogLine) : String :=
  String.intercalate "\n" (entries.map wvStr) ++ "\n"

/-- Python `self.lastCheckTime or self.testStartTime`: `or` falls through
on falsy values, i.e. on `None` and on the float `0.0`. -/
def lastOrStart (p : WvTestProcessor) : Rat :=
  match p.lastCheckTime with
  | some t => if t = 0 then p.testStartTime else t
  | none => p.testStartTime

/-- Python `where.replace('.', '_')` used to sanitize the suite class
name: a single-character replacement, i.e. a character map. -/
def sanitizeWhr (s : String) : String :=
  String.mk (s.toList.map (fun c => if c = '.' then '_' else c))

/-- `WvTestProcessor._rememberJUnitTestcase` (JUnit enabled): compute the
check duration from the previous check (or the section start), update
`lastCheckTime`, and record a `Testcase` whose failure field is set iff
the check is not a success.  The source reads `self.currentTest.where`;
with no open section that is an `AttributeError`, never reached from the
guarded call sites — the model substitutes an empty title there. -/
def _rememberJUnitTestcase (now : Rat) (p : WvTestProcessor)
    (check : WvCheckLine) : WvTestProcessor :=
  let duration := now - lastOrStart p
  let failure : Option Failure :=
    if is_success check then none
    else some ⟨"WvTest check", check.text⟩
  let ct := p.currentTest.getD ⟨"", ""⟩
  let tc : Testcase :=
    { classname := p.junitPfx ++ (sanitizeWhr ct.whr) ++ "." ++ ct.what,
      name := check.text, time := duration, failure := failure }
  { p with lastCheckTime := some now,
           junitTestcases := p.junitTestcases ++ [tc] }

/-- The `Testsuite` record built by `_rememberJUnitTestsuite` from the
state of the finishing section. -/
def mkTestsuite (now : Rat) (p : WvTestProcessor) : Testsuite :=
  let ct := p.currentTest.getD ⟨"", ""⟩
  { tests := p.checkCount, failures := p.checkFailedCount, errors := 0,
    name := p.junitPfx ++ (sanitizeWhr ct.whr) ++ "." ++ ct.what,
    time := now - p.testStartTime, testcases := p.junitTestcases,
    system_out := plainText p.entries }

/-- `WvTestProcessor._rememberJUnitTestsuite` (JUnit enabled): snapshot
the finished section as a `Testsuite` record and reset the per-section
testcase list. -/
def _rememberJUnitTestsuite (now : Rat) (p : WvTestProcessor) :
    WvTestProcessor :=
  { p with junitTestsuites := p.junitTestsuites ++ [mkTestsuite now p],
           junitTestcases := [] }

/-- `WvTestProcessor._finishCurrentTest` with `show_progress = False` and
no log sink: record the testsuite; on failure print the captured section
(NORMAL) or a one-line FAILED summary (SUMMARY) and bump
`testFailedCount`; on success print a one-line ok summary unless VERBOSE;
finally clear the captured entries.  Only called with an open section
(`currentTest` is `some`); the source would raise otherwise. -/
def _finishCurrentTest (now : Rat) (p : WvTestProcessor) : WvTestProcessor :=
  match p.currentTest with
  | none => p
  | some ct =>
    let p := _rememberJUnitTestsuite now p
    let p :=
      if 0 < p.checkFailedCount then
        let p :=
          if p.verbosity = vNORMAL then
            { p with output := p.output ++ p.entries.map printLine }
          else if p.verbosity < vNORMAL then
            { p with output := p.output ++ [formated (asWvCheckLine ct "FAILED")] }
          else p
        { p with testFailedCount := p.testFailedCount + 1 }
      else
        if p.verbosity ≤ vNORMAL then
          { p with output := p.output ++ [formated (asWvCheckLine ct "ok")] }
        else p
    { p with entries := [] }

/-- `WvTestProcessor._newTest`: finish the open section if any; when a new
header is supplied, bump `testCount`, stamp the section start time and
clear `lastCheckTime`; either way install the (possibly absent) new
header and zero the per-section counters. -/
def _newTest (now : Rat) (p : WvTestProcessor)
    (testing : Option WvTestingLine) : WvTestProcessor :=
  let p := if p.currentTest.isSome then _finishCurrentTest now p else p
  let p :=
    match testing with
    | some _ =>
      { p with testCount := p.testCount + 1, testStartTime := now,
               lastCheckTime := none }
    | none => p
  { p with currentTest := testing, checkCount := 0, checkFailedCount := 0 }

/-- `WvTestProcessor._newCheck`: bump `checkCount`, bump
`checkFailedCount` iff the check is not a success, then record the JUnit
testcase. -/
def _newCheck (now : Rat) (p : WvTestProcessor) (check : WvCheckLine) :
    WvTestProcessor :=
  let p := { p with checkCount := p.checkCount + 1 }
  let p :=
    if is_success check then p
    else { p with checkFailedCount := p.checkFailedCount + 1 }
  _rememberJUnitTestcase now p check

/-- Whether a classified line is a section header (`type(logEntry) ==
WvTestingLine` in the source). -/
def isHeader : LogLine → Bool
  | .testing _ => true
  | _ => false

/-- The implicit-title block at the top of `WvTestProcessor.append`: a
blank line is ignored, an explicit header drops the pending implicit
title, and any other line materializes it — `_newTest` on the implicit
title, the title logged, and the pending title cleared. -/
def appendImplicit (now : Rat) (p : WvTestProcessor) (e : LogLine) :
    WvTestProcessor :=
  match p.implicitTestTitle with
  | none => p
  | some impl =>
    if wvStr e == "" then p
    else if isHeader e then { p with implicitTestTitle := none }
    else
      let p1 := _newTest now p (some impl)
      let p2 := { p1 with entries := p1.entries ++ [LogLine.testing impl] }
      { p2 with implicitTestTitle := none }

/-- The type dispatch of `WvTestProcessor.append`: headers go to
`_newTest`, checks to `_newCheck`, other lines change no state. -/
def appendDispatch (now : Rat) (p : WvTestProcessor) (e : LogLine) :
    WvTestProcessor :=
  match e with
  | .testing t => _newTest now p (some t)
  | .check c => _newCheck now p c
  | _ => p

/-- `WvTestProcessor.append`: materialize the pending implicit title on
the first nonblank non-header line (dropping it on an explicit header),
dispatch headers to `_newTest` and checks to `_newCheck`, log the entry,
and echo it when VERBOSE. -/
def append (now : Rat) (p : WvTestProcessor) (e : LogLine) : WvTestProcessor :=
  let p1 := appendImplicit now p e
  let p2 := appendDispatch now p1 e
  let p3 := { p2 with entries := p2.entries ++ [e] }
  if p3.verbosity = vVERBOSE then
    { p3 with output := p3.output ++ [printLine e] }
  else p3

/-- `WvTestProcessor.processLine`: classify the raw line and append it;
`none` is the `"Non-matched line"` exception branch. -/
def processLine (now : Rat) (p : WvTestProcessor) (raw : String) :
    Option WvTestProcessor :=
  match classify raw with
  | some e => some (append now p e)
  | none => none

/-- `WvTestProcessor.done`: finish the open section, then print the run
summary line (the structured report is written to the separate JUnit
file, not to standard output). -/
def done (now : Rat) (p : WvTestProcessor) : WvTestProcessor :=
  let p := _newTest now p none
  let summary :=
    "WvTest: " ++ toString p.testCount ++ " test" ++
    (if p.testCount = 1 then "" else "s") ++ ", " ++
    toString p.testFailedCount ++ " failure" ++
    (if p.testFailedCount = 1 then "" else "s") ++ "."
  { p with output := p.output ++ [summary] }

/-- `WvTestProcessor.is_success`: no failed test section. -/
def procIsSuccess (p : WvTestProcessor) : Bool :=
  p.testFailedCount == 0

/-- The module entry `sys.exit(0 if processor.is_success() else 1)`. -/
def exitCode (p : WvTestProcessor) : Nat :=
  if procIsSuccess p then 0 else 1

/-- Fold `append` over a stream of timestamped classified lines. -/
def runEvents (p : WvTestProcessor) : List (Rat × LogLine) → WvTestProcessor
  | [] => p
  | (t, e) :: rest => runEvents (append t p e) rest

/-- Fold `processLine` over a stream of timestamped raw lines, failing if
any line fails to classify. -/
def runLines (p : WvTestProcessor) : List (Rat × String) → Option WvTestProcessor
  | [] => some p
  | (t, s) :: rest =>
    match processLine t p s with
    | some p' => runLines p' rest
    | none => none

/-- The implicit-title synthesis guard of `WvTestProcessor.append`: a
pending implicit title, a nonblank entry, and not an explicit header. -/
def synthesizes (p : WvTestProcessor) (e : LogLine) : Bool :=
  p.implicitTestTitle.isSome && !(wvStr e == "") && !isHeader e

/-- For each event of a stream, whether the implicit-title synthesis fires
while appending it. -/
def synthFlags (p : WvTestProcessor) : List (Rat × LogLine) → List Bool
  | [] => []
  | (t, e) :: rest => synthesizes p e :: synthFlags (append t p e) rest

/-- Number of finalized sections whose snapshot records at least one
failed check. -/
def countFailing (l : List Testsuite) : Nat :=
  (l.filter (fun ts => decide (0 < ts.failures))).length

/-- The run-state invariant: `testCount` counts the opened sections
(finalized snapshots plus the currently open one) and `testFailedCount`
counts exactly the finalized sections with a failed check. -/
def processorInv (p : WvTestProcessor) : Prop :=
  p.testCount = p.junitTestsuites.length +
    (if p.currentTest.isSome then 1 else 0) ∧
  p.testFailedCount = countFailing p.junitTestsuites

/-- The input lines of spec Scenario A, all at clock 0. -/
def scenarioALines : List (Rat × String) :=
  [(0, "Testing \"foo\" in bar:"), (0, "! check one ok"),
   (0, "! check two FAILED")]

/-- Scenario A processed through `processLine` in the `format`/stdin
configuration (NORMAL verbosity, implicit title `("Preamble", "stdin")`). -/
def scenarioARun : Option WvTestProcessor :=
  runLines (initProcessor vNORMAL "" (some ⟨"Preamble", "stdin"⟩))
    scenarioALines

/-- The Scenario A state after `done()`.  The default of `getD` is never
used: `scenarioARun` computes to `some`. -/
def scenarioADone : WvTestProcessor :=
  done 0 (scenarioARun.getD (initProcessor vNORMAL "" none))

/-- The classified events of Scenario A (what `classify` yields on its
three lines), all at clock 0. -/
def scenarioAEvents : List (Rat × LogLine) :=
  [(0, .testing ⟨"foo", "bar"⟩), (0, .check ⟨"check one", "ok"⟩),
   (0, .check ⟨"check two", "FAILED"⟩)]

/-- The state right after processing the single header line
`Testing "foo" in bar:` — a section has been opened but nothing has been
finalized yet. -/
def headerOnlyRun : WvTestProcessor :=
  runEvents (initProcessor vNORMAL "" none) [(0, .testing ⟨"foo", "bar"⟩)]

/-- A concrete mid-section state used to exercise the check-timing logic:
section open since time 2, previous check at time 5. -/
def timingState : WvTestProcessor :=
  { initProcessor vNORMAL "" none with
    currentTest := some ⟨"foo", "bar"⟩, testStartTime := 2,
    lastCheckTime := some 5 }

theorem takeWhile_append_all {α : Type} (p : α → Bool) {l₁ : List α}
    (l₂ : List α) (h : ∀ a ∈ l₁, p a = true) :
    (l₁ ++ l₂).takeWhile p = l₁ ++ l₂.takeWhile p := by
  induction l₁ with
  | nil => simp
  | cons x xs ih =>
    simp only [List.cons_append, List.takeWhile_cons, h x (by simp),
      if_true, List.cons.injEq, true_and]
    exact ih (fun a ha => h a (by simp [ha]))

theorem dropWhile_append_all {α : Type} (p : α → Bool) {l₁ : List α}
    (l₂ : List α) (h : ∀ a ∈ l₁, p a = true) :
    (l₁ ++ l₂).dropWhile p = l₂.dropWhile p := by
  induction l₁ with
  | nil => simp
  | cons x xs ih =>
    simp only [List.cons_append, List.dropWhile_cons, h x (by simp), if_true]
    exact ih (fun a ha => h a (by simp [ha]))

theorem takeWhile_all {α : Type} (p : α → Bool) {l : List α}
    (h : ∀ a ∈ l, p a = true) : l.takeWhile p = l := by
  have := @takeWhile_append_all α p l [] h
  simpa using this

theorem dropWhile_all {α : Type} (p : α → Bool) {l : List α}
    (h : ∀ a ∈ l, p a = true) : l.dropWhile p = [] := by
  have := @dropWhile_append_all α p l [] h
  simpa using this

theorem takeWhile_head_false {α : Type} (p : α → Bool) (x : α) (xs : List α)
    (h : p x = false) : (x :: xs).takeWhile p = [] := by
  simp [List.takeWhile_cons, h]

theorem dropWhile_head_false {α : Type} (p : α → Bool) (x : α) (xs : List α)
    (h : p x = false) : (x :: xs).dropWhile p = x :: xs := by
  simp [List.dropWhile_cons, h]

theorem countFailing_append (l : List Testsuite) (ts : Testsuite) :
    countFailing (l ++ [ts]) =
      countFailing l + (if 0 < ts.failures then 1 else 0) := by
  simp only [countFailing, List.filter_append, List.length_append]
  by_cases h : 0 < ts.failures <;> simp [h]

theorem countFailing_pos {l : List Testsuite} {ts : Testsuite}
    (hmem : ts ∈ l) (hf : 0 < ts.failures) : 0 < countFailing l := by
  have : ts ∈ l.filter (fun ts => decide (0 < ts.failures)) :=
    List.mem_filter.2 ⟨hmem, by simpa using hf⟩
  have := List.length_pos.2 (List.ne_nil_of_mem this)
  simpa [countFailing] using this

theorem finish_spec (now : Rat) (p : WvTestProcessor) {ct : WvTestingLine}
    (h : p.currentTest = some ct) :
    (_finishCurrentTest now p).testCount = p.testCount ∧
    (_finishCurrentTest now p).testFailedCount =
      p.testFailedCount + (if 0 < p.checkFailedCount then 1 else 0) ∧
    (_finishCurrentTest now p).junitTestsuites =
      p.junitTestsuites ++ [mkTestsuite now p] ∧
    (_finishCurrentTest now p).currentTest = p.currentTest ∧
    (_finishCurrentTest now p).implicitTestTitle = p.implicitTestTitle ∧
    (_finishCurrentTest now p).checkCount = p.checkCount ∧
    (_finishCurrentTest now p).checkFailedCount = p.checkFailedCount := by
  simp only [_finishCurrentTest, h, _rememberJUnitTestsuite]
  split_ifs <;> simp [h]

theorem newCheck_spec (now : Rat) (p : WvTestProcessor) (c : WvCheckLine) :
    (_newCheck now p c).testCount = p.testCount ∧
    (_newCheck now p c).testFailedCount = p.testFailedCount ∧
    (_newCheck now p c).junitTestsuites = p.junitTestsuites ∧
    (_newCheck now p c).currentTest = p.currentTest ∧
    (_newCheck now p c).implicitTestTitle = p.implicitTestTitle ∧
    (_newCheck now p c).checkCount = p.checkCount + 1 ∧
    (_newCheck now p c).checkFailedCount =
      (if c.result = "ok" then p.checkFailedCount
       else p.checkFailedCount + 1) := by
  simp only [_newCheck, _rememberJUnitTestcase, is_success]
  by_cases hok : c.result = "ok" <;> simp [hok]

theorem newTest_spec (now : Rat) (p : WvTestProcessor)
    (o : Option WvTestingLine) :
    (_newTest now p o).currentTest = o ∧
    (_newTest now p o).implicitTestTitle = p.implicitTestTitle ∧
    (_newTest now p o).checkCount = 0 ∧
    (_newTest now p o).checkFailedCount = 0 := by
  rcases hc : p.currentTest with _ | ct
  · rcases o with _ | hd <;> simp [_newTest, hc]
  · obtain ⟨-, -, -, -, f5, -, -⟩ := finish_spec now p hc
    rcases o with _ | hd <;> simp [_newTest, hc, f5]

theorem newTest_testCount_some (now : Rat) (p : WvTestProcessor)
    (hd : WvTestingLine) :
    (_newTest now p (some hd)).testCount = p.testCount + 1 := by
  rcases hc : p.currentTest with _ | ct
  · simp [_newTest, hc]
  · obtain ⟨f1, -, -, -, -, -, -⟩ := finish_spec now p hc
    simp [_newTest, hc, f1]

theorem inv_newTest (now : Rat) (p : WvTestProcessor)
    (o : Option WvTestingLine) (h : processorInv p) :
    processorInv (_newTest now p o) := by
  obtain ⟨h1, h2⟩ := h
  rcases hc : p.currentTest with _ | ct
  · rcases o with _ | hd <;>
      simp_all [processorInv, _newTest, hc]
  · obtain ⟨f1, f2, f3, -, -, -, -⟩ := finish_spec now p hc
    have hfail : (mkTestsuite now p).failures = p.checkFailedCount := rfl
    rcases o with _ | hd <;>
      constructor <;>
        simp_all [processorInv, _newTest, hc, countFailing_append]

theorem inv_appendImplicit (t : Rat) (p : WvTestProcessor) (e : LogLine)
    (h : processorInv p) : processorInv (appendImplicit t p e) := by
  rw [appendImplicit]
  rcases hi : p.implicitTestTitle with _ | impl
  · exact h
  · by_cases hb : wvStr e == ""
    · simpa [hb] using h
    · by_cases hh : isHeader e
      · simpa [hb, hh, processorInv] using h
      · have hnew := inv_newTest t p (some impl) h
        simpa [hb, hh, processorInv] using hnew

theorem inv_appendDispatch (t : Rat) (p : WvTestProcessor) (e : LogLine)
    (h : processorInv p) : processorInv (appendDispatch t p e) := by
  rcases e with l | tl | c | tg
  · exact h
  · exact inv_newTest t p (some tl) h
  · obtain ⟨n1, n2, n3, n4, -, -, -⟩ := newCheck_spec t p c
    show processorInv (_newCheck t p c)
    exact ⟨by rw [n1, n3, n4]; exact h.1, by rw [n2, n3]; exact h.2⟩
  · exact h

theorem inv_append (t : Rat) (p : WvTestProcessor) (e : LogLine)
    (h : processorInv p) : processorInv (append t p e) := by
  have h2 := inv_appendDispatch t _ e (inv_appendImplicit t p e h)
  rw [append]
  split_ifs <;> exact ⟨h2.1, h2.2⟩

theorem inv_runEvents (p : WvTestProcessor) (evs : List (Rat × LogLine))
    (h : processorInv p) : processorInv (runEvents p evs) := by
  induction evs generalizing p with
  | nil => exact h
  | cons te rest ih => exact ih _ (inv_append te.1 p te.2 h)

theorem inv_init (v : Nat) (pfx : String) (impl : Option WvTestingLine) :
    processorInv (initProcessor v pfx impl) := by
  simp [processorInv, initProcessor, countFailing]

theorem done_spec (t : Rat) (p : WvTestProcessor) (h : processorInv p) :
    (done t p).currentTest = none ∧
    (done t p).testCount = (done t p).junitTestsuites.length ∧
    (done t p).testFailedCount = countFailing (done t p).junitTestsuites := by
  have hnew := inv_newTest t p none h
  obtain ⟨c1, -, -, -⟩ := newTest_spec t p none
  refine ⟨by simp [done, c1], ?_, ?_⟩
  · have := hnew.1
    simp [c1] at this
    simpa [done] using this
  · simpa [done] using hnew.2

theorem done_counts (t : Rat) (p : WvTestProcessor) :
    (done t p).testFailedCount = (_newTest t p none).testFailedCount ∧
    (done t p).junitTestsuites = (_newTest t p none).junitTestsuites := by
  simp [done]

theorem inv_done (t : Rat) (p : WvTestProcessor) (h : processorInv p) :
    processorInv (done t p) := by
  have hn := inv_newTest t p none h
  exact ⟨by simpa [done] using hn.1, by simpa [done] using hn.2⟩

theorem inv_le (q : WvTestProcessor) (hq : processorInv q) :
    q.testFailedCount ≤ q.testCount := by
  rw [hq.1, hq.2]
  exact le_trans
    (List.length_filter_le (fun ts => decide (0 < ts.failures))
      q.junitTestsuites)
    (Nat.le_add_right _ _)

theorem wvStr_testing_ne (tl : WvTestingLine) : ¬ wvStr (.testing tl) = "" := by
  intro h
  have hlen := congrArg String.length h
  have h9 : ("Testing \"" : String).length = 9 := rfl
  have h5 : ("\" in " : String).length = 5 := rfl
  have h1 : (":" : String).length = 1 := rfl
  simp [wvStr, String.length_append, h9, h5, h1] at hlen

theorem dispatch_implicit (t : Rat) (p : WvTestProcessor) (e : LogLine) :
    (appendDispatch t p e).implicitTestTitle = p.implicitTestTitle := by
  rcases e with l | tl | c | tg
  · rfl
  · exact (newTest_spec t p (some tl)).2.1
  · exact (newCheck_spec t p c).2.2.2.2.1
  · rfl

theorem implicit_after_append (t : Rat) (p : WvTestProcessor) (e : LogLine) :
    (append t p e).implicitTestTitle =
      (appendImplicit t p e).implicitTestTitle := by
  have hd := dispatch_implicit t (appendImplicit t p e) e
  rw [append]
  split_ifs <;> simpa using hd

theorem append_implicit_none (t : Rat) (p : WvTestProcessor) (e : LogLine)
    (h : p.implicitTestTitle = none) :
    (append t p e).implicitTestTitle = none := by
  rw [implicit_after_append, appendImplicit, h]
  exact h

theorem append_synth (t : Rat) (p : WvTestProcessor) (e : LogLine)
    (h : synthesizes p e = true) :
    (append t p e).implicitTestTitle = none := by
  rw [implicit_after_append, appendImplicit]
  rcases hi : p.implicitTestTitle with _ | impl
  · exact hi
  · rw [synthesizes, hi] at h
    simp only [Option.isSome_some, Bool.true_and, Bool.and_eq_true,
      Bool.not_eq_true'] at h
    simp [h.1, h.2]

theorem append_testing (t : Rat) (p : WvTestProcessor) (tl : WvTestingLine) :
    (append t p (.testing tl)).implicitTestTitle = none := by
  rw [implicit_after_append, appendImplicit]
  rcases hi : p.implicitTestTitle with _ | impl
  · exact hi
  · simp [wvStr_testing_ne tl, isHeader]

theorem runEvents_implicit_none (p : WvTestProcessor)
    (evs : List (Rat × LogLine)) (h : p.implicitTestTitle = none) :
    (runEvents p evs).implicitTestTitle = none := by
  induction evs generalizing p with
  | nil => exact h
  | cons te rest ih => exact ih _ (append_implicit_none te.1 p te.2 h)

theorem runEvents_header_none (p : WvTestProcessor)
    (xs : List (Rat × LogLine)) (hex : ∃ q ∈ xs, isHeader q.2 = true) :
    (runEvents p xs).implicitTestTitle = none := by
  induction xs generalizing p with
  | nil => simp at hex
  | cons te rest ih =>
    obtain ⟨t, e⟩ := te
    rcases hex with ⟨q, hq, hhd⟩
    rcases List.mem_cons.1 hq with hq | hq
    · subst hq
      rcases e with l | tl | c | tg <;> simp [isHeader] at hhd
      exact runEvents_implicit_none _ rest (append_testing t p tl)
    · exact ih _ ⟨q, hq, hhd⟩

theorem synthCount_zero (p : WvTestProcessor) (evs : List (Rat × LogLine))
    (h : p.implicitTestTitle = none) :
    (synthFlags p evs).count true = 0 := by
  induction evs generalizing p with
  | nil => rfl
  | cons te rest ih =>
    obtain ⟨t, e⟩ := te
    have hflag : synthesizes p e = false := by simp [synthesizes, h]
    have := ih _ (append_implicit_none t p e h)
    simp [synthFlags, hflag, List.count_cons, this]

theorem synthCount_le_one (p : WvTestProcessor)
    (evs : List (Rat × LogLine)) :
    (synthFlags p evs).count true ≤ 1 := by
  induction evs generalizing p with
  | nil => simp [synthFlags]
  | cons te rest ih =>
    obtain ⟨t, e⟩ := te
    by_cases hs : synthesizes p e = true
    · have h0 := synthCount_zero (append t p e) rest (append_synth t p e hs)
      simp [synthFlags, hs, List.count_cons, h0]
    · have hs' : synthesizes p e = false := by
        simpa using hs
      simp [synthFlags, hs', List.count_cons]
      exact ih _

theorem checkMatch_bang_ws_tok (w tok : List Char)
    (hw : w ≠ []) (hws : ∀ c ∈ w, pyIsSpace c = true)
    (ht : tok ≠ []) (hts : ∀ c ∈ tok, pyIsSpace c = false) :
    checkMatch ('!' :: (w ++ tok)) = some ⟨"", String.mk tok⟩ := by
  have hwr : ∀ c ∈ w.reverse, pyIsSpace c = true := fun c hc =>
    hws c (List.mem_reverse.1 hc)
  have htr : ∀ c ∈ tok.reverse, (fun c => !pyIsSpace c) c = true := by
    intro c hc
    simp [hts c (List.mem_reverse.1 hc)]
  obtain ⟨y, ys, hys⟩ : ∃ y ys, w.reverse = y :: ys := by
    rcases hrev : w.reverse with _ | ⟨y, ys⟩
    · exact absurd (by simpa using congrArg List.reverse hrev) hw
    · exact ⟨y, ys, rfl⟩
  have hy : pyIsSpace y = true :=
    hwr y (by rw [hys]; exact List.mem_cons_self y ys)
  obtain ⟨z, zs, hzs⟩ : ∃ z zs, tok.reverse = z :: zs := by
    rcases hrev : tok.reverse with _ | ⟨z, zs⟩
    · exact absurd (by simpa using congrArg List.reverse hrev) ht
    · exact ⟨z, zs, rfl⟩
  have e1 : (w ++ tok).reverse = tok.reverse ++ w.reverse :=
    List.reverse_append w tok
  have e2 : (tok.reverse ++ w.reverse).takeWhile (fun c => !pyIsSpace c) =
      tok.reverse := by
    rw [takeWhile_append_all _ _ htr, hys,
      takeWhile_head_false _ y ys (by simp [hy]), List.append_nil]
  have e3 : (tok.reverse ++ w.reverse).dropWhile (fun c => !pyIsSpace c) =
      w.reverse := by
    rw [dropWhile_append_all _ _ htr, hys,
      dropWhile_head_false _ y ys (by simp [hy])]
  have e4 : w.reverse.takeWhile pyIsSpace = w.reverse := takeWhile_all _ hwr
  have e5 : w.reverse.dropWhile pyIsSpace = [] := dropWhile_all _ hwr
  have hres : checkMatch ('!' :: (w ++ tok)) =
      some ⟨String.mk [], String.mk tok.reverse.reverse⟩ := by
    simp only [checkMatch, e1, e2, e3, e4, e5]
    rw [hzs, hys]
    rfl
  rw [hres, List.reverse_reverse]

theorem checkMatch_keeps_line (w tok : List Char)
    (ht : tok ≠ []) (hts : ∀ c ∈ tok, pyIsSpace c = false) :
    pyRstrip ('!' :: (w ++ tok)) = '!' :: (w ++ tok) := by
  obtain ⟨z, zs, hzs⟩ : ∃ z zs, tok.reverse = z :: zs := by
    rcases hrev : tok.reverse with _ | ⟨z, zs⟩
    · exact absurd (by simpa using congrArg List.reverse hrev) ht
    · exact ⟨z, zs, rfl⟩
  have hz : pyIsSpace z = false :=
    hts z (List.mem_reverse.1 (by rw [hzs]; exact List.mem_cons_self z zs))
  have hrev : ('!' :: (w ++ tok)).reverse =
      z :: (zs ++ (w.reverse ++ ['!'])) := by
    rw [List.reverse_cons, List.reverse_append, hzs]
    simp [List.append_assoc]
  rw [pyRstrip, hrev, dropWhile_head_false _ z _ hz, ← hrev,
    List.reverse_reverse]

/-- C1: classification is total and deterministic — the patterns are tried
in the fixed order check, header, tag, plain; the catch-all plain pattern
matches any text, so `classify` (and hence `processLine`) never reaches
the `"Non-matched line"` error branch. -/
theorem claim_C1 (s : String) (t : Rat) (p : WvTestProcessor) :
    (∃ e, classify s = some e) ∧
    (∃ p', processLine t p s = some p') ∧
    (∀ c, checkMatch (pyRstrip s.toList) = some c →
      classify s = some (.check c)) ∧
    (checkMatch (pyRstrip s.toList) = none →
      ∀ tl, testingMatch (pyRstrip s.toList) = some tl →
        classify s = some (.testing tl)) ∧
    (checkMatch (pyRstrip s.toList) = none →
      testingMatch (pyRstrip s.toList) = none →
        ∀ tg, tagMatch (pyRstrip s.toList) = some tg →
          classify s = some (.tag tg)) ∧
    (checkMatch (pyRstrip s.toList) = none →
      testingMatch (pyRstrip s.toList) = none →
        tagMatch (pyRstrip s.toList) = none →
          classify s = some (.plain (String.mk
            ((pyRstrip s.toList).takeWhile (fun c => c ≠ '\n'))))) := by
  rcases hc : checkMatch (pyRstrip s.toList) with _ | c <;>
    rcases ht : testingMatch (pyRstrip s.toList) with _ | tl <;>
      rcases hg : tagMatch (pyRstrip s.toList) with _ | tg <;>
        refine ⟨?_, ?_, ?_, ?_, ?_, ?_⟩ <;>
          simp_all [classify, processLine, plainMatch]

/-- C2 counterexample: on Scenario A the final standard-output line is
`WvTest: 1 test, 1 failure.` (singular, with the `WvTest:` tag), not the
claimed `1 tests, 1 failures.`, which is printed nowhere. -/
theorem claim_C2_counterexample :
    scenarioADone.output.getLast? = some "WvTest: 1 test, 1 failure." ∧
    ¬ ("WvTest: 1 test, 1 failure." : String) = "1 tests, 1 failures." ∧
    ¬ ("1 tests, 1 failures." : String) ∈ scenarioADone.output := by
  decide

/-- C2 (amended): Scenario A — header, one passing check, one failing
check, then `done()` — yields exactly one finalized section with
`checkCount = 2` and `checkFailedCount = 1`, prints the run summary
`WvTest: 1 test, 1 failure.` as the final standard-output line, and the
run exits with status 1. -/
theorem claim_C2 :
    scenarioARun.isSome = true ∧
    scenarioADone.junitTestsuites.map (fun ts => (ts.tests, ts.failures)) =
      [(2, 1)] ∧
    scenarioADone.output.getLast? = some "WvTest: 1 test, 1 failure." ∧
    exitCode scenarioADone = 1 := by
  refine ⟨by decide, by decide, by decide, by decide⟩

/-- C3: the exit status is 0 iff `testFailedCount` is 0 at run end, and a
run containing a finalized section with a failed check exits nonzero. -/
theorem claim_C3 (v : Nat) (pfx : String) (impl : Option WvTestingLine)
    (evs : List (Rat × LogLine)) (t : Rat) :
    (exitCode (done t (runEvents (initProcessor v pfx impl) evs)) = 0 ↔
      (done t (runEvents (initProcessor v pfx impl) evs)).testFailedCount
        = 0) ∧
    ((∃ ts ∈ (done t (runEvents (initProcessor v pfx impl)
        evs)).junitTestsuites, 0 < ts.failures) →
      ¬ exitCode (done t (runEvents (initProcessor v pfx impl) evs)) = 0) := by
  have hiff : exitCode (done t (runEvents (initProcessor v pfx impl) evs))
      = 0 ↔
      (done t (runEvents (initProcessor v pfx impl) evs)).testFailedCount
        = 0 := by
    rw [exitCode, procIsSuccess]
    by_cases h : (done t (runEvents (initProcessor v pfx impl)
        evs)).testFailedCount = 0 <;> simp [h]
  refine ⟨hiff, ?_⟩
  rintro ⟨ts, hmem, hf⟩ h0
  have hinv := inv_runEvents _ evs (inv_init v pfx impl)
  have hd := (done_spec t _ hinv).2.2
  have hpos : 0 < countFailing (done t (runEvents (initProcessor v pfx impl)
      evs)).junitTestsuites := countFailing_pos hmem hf
  rw [← hd] at hpos
  rw [hiff.1 h0] at hpos
  exact absurd hpos (by decide)

/-- C4 counterexample: after processing a single section header,
`testCount` is already 1 while no finalization has happened — the
`testCount` increment happens at section open, not at finalization. -/
theorem claim_C4_counterexample :
    headerOnlyRun.testCount = 1 ∧ headerOnlyRun.junitTestsuites = [] ∧
    ¬ headerOnlyRun.testCount = headerOnlyRun.junitTestsuites.length := by
  decide

/-- C4 (amended): opening a section (`_newTest` with a header) increments
`testCount` by exactly one; finalization leaves `testCount` unchanged,
records exactly one section snapshot, and increments `testFailedCount`
iff that section's `checkFailedCount > 0`; `done()` resets the current
section to none, after which `testCount` equals the number of
finalizations and `testFailedCount` the number of finalized sections with
`checkFailedCount > 0`. -/
theorem claim_C4 (now t : Rat) (p : WvTestProcessor)
    (hd ct : WvTestingLine) (v : Nat) (pfx : String)
    (impl : Option WvTestingLine) (evs : List (Rat × LogLine))
    (hct : p.currentTest = some ct) :
    (_newTest now p (some hd)).testCount = p.testCount + 1 ∧
    (_finishCurrentTest now p).testCount = p.testCount ∧
    (_finishCurrentTest now p).junitTestsuites =
      p.junitTestsuites ++ [mkTestsuite now p] ∧
    (_finishCurrentTest now p).testFailedCount =
      p.testFailedCount + (if 0 < p.checkFailedCount then 1 else 0) ∧
    (done t (runEvents (initProcessor v pfx impl) evs)).currentTest
      = none ∧
    (done t (runEvents (initProcessor v pfx impl) evs)).testCount =
      (done t (runEvents (initProcessor v pfx impl)
        evs)).junitTestsuites.length ∧
    (done t (runEvents (initProcessor v pfx impl) evs)).testFailedCount =
      countFailing (done t (runEvents (initProcessor v pfx impl)
        evs)).junitTestsuites := by
  obtain ⟨f1, f2, f3, -, -, -, -⟩ := finish_spec now p hct
  have hinv := inv_runEvents _ evs (inv_init v pfx impl)
  obtain ⟨d1, d2, d3⟩ := done_spec t _ hinv
  exact ⟨newTest_testCount_some now p hd, f1, f3, f2, d1, d2, d3⟩

/-- C5: starting from the initial state, `testFailedCount ≤ testCount`
holds after every sequence of appends and after `done()`, and
`testFailedCount` always equals the number of finalized section snapshots
with a failed check — each finalized section is counted exactly once, at
its finalization. -/
theorem claim_C5 (v : Nat) (pfx : String) (impl : Option WvTestingLine)
    (evs : List (Rat × LogLine)) (t : Rat) :
    (runEvents (initProcessor v pfx impl) evs).testFailedCount ≤
      (runEvents (initProcessor v pfx impl) evs).testCount ∧
    (runEvents (initProcessor v pfx impl) evs).testFailedCount =
      countFailing (runEvents (initProcessor v pfx impl)
        evs).junitTestsuites ∧
    (done t (runEvents (initProcessor v pfx impl) evs)).testFailedCount ≤
      (done t (runEvents (initProcessor v pfx impl) evs)).testCount ∧
    (done t (runEvents (initProcessor v pfx impl) evs)).testFailedCount =
      countFailing (done t (runEvents (initProcessor v pfx impl)
        evs)).junitTestsuites := by
  have hinv := inv_runEvents _ evs (inv_init v pfx impl)
  have hinvd := inv_done t _ hinv
  exact ⟨inv_le _ hinv, hinv.2, inv_le _ hinvd, hinvd.2⟩

/-- C6: after a single `setImplicitTestTitle`, implicit-title synthesis
fires at most once per run, and it fires on an event only if that event
is nonblank, is not a header, and no explicit header occurred earlier in
the stream. -/
theorem claim_C6 (v : Nat) (pfx : String) (impl : WvTestingLine)
    (xs ys : List (Rat × LogLine)) (t : Rat) (e : LogLine) :
    (synthFlags (initProcessor v pfx (some impl))
      (xs ++ (t, e) :: ys)).count true ≤ 1 ∧
    (synthesizes (runEvents (initProcessor v pfx (some impl)) xs) e =
        true →
      ¬ wvStr e = "" ∧ isHeader e = false ∧
        ∀ q ∈ xs, isHeader q.2 = false) := by
  refine ⟨synthCount_le_one _ _, ?_⟩
  intro hs
  have hs' := hs
  rw [synthesizes] at hs'
  simp only [Bool.and_eq_true, Bool.not_eq_true'] at hs'
  refine ⟨by simpa using hs'.1.2, hs'.2, ?_⟩
  intro q hq
  by_contra hhd
  have hnone : (runEvents (initProcessor v pfx (some impl))
      xs).implicitTestTitle = none :=
    runEvents_header_none _ xs ⟨q, hq, by simpa using hhd⟩
  rw [synthesizes, hnone] at hs
  simp at hs

/-- C7: with structured-report recording enabled, each check's duration is
`now` minus the previous check's time (or the section start when no check
has happened yet), `lastCheckTime` is then set to `now`, and opening a
section resets `lastCheckTime` to null.  (The hypothesis excludes the
clock value 0, which Python's `or` would treat as absent; wall-clock
times are never 0.) -/
theorem claim_C7 (now : Rat) (p : WvTestProcessor) (c : WvCheckLine)
    (h : ¬ p.lastCheckTime = some 0) :
    (∃ tc : Testcase,
      (_newCheck now p c).junitTestcases = p.junitTestcases ++ [tc] ∧
      tc.time = now - (p.lastCheckTime.getD p.testStartTime)) ∧
    (_newCheck now p c).lastCheckTime = some now ∧
    (∀ hd : WvTestingLine,
      (_newTest now p (some hd)).lastCheckTime = none) := by
  have hlos : lastOrStart p = p.lastCheckTime.getD p.testStartTime := by
    rw [lastOrStart]
    rcases hl : p.lastCheckTime with _ | x
    · rfl
    · rw [hl] at h
      have hx : ¬ x = 0 := fun hx => h (by rw [hx])
      simp [hx]
  have hcore : (_newCheck now p c).junitTestcases = p.junitTestcases ++
      [{ classname := p.junitPfx ++
           sanitizeWhr (p.currentTest.getD ⟨"", ""⟩).whr ++ "." ++
           (p.currentTest.getD ⟨"", ""⟩).what,
         name := c.text, time := now - lastOrStart p,
         failure := if is_success c then none
                    else some ⟨"WvTest check", c.text⟩ }] := by
    by_cases hok : is_success c <;>
      simp [_newCheck, _rememberJUnitTestcase, hok, lastOrStart]
  refine ⟨⟨_, hcore, by rw [hlos]⟩, ?_, ?_⟩
  · by_cases hok : is_success c <;>
      simp [_newCheck, _rememberJUnitTestcase, hok]
  · intro hd
    rcases hc : p.currentTest with _ | ct <;> simp [_newTest, hc]

/-- C8: in the structured-report escaping, control characters 1–31 other
than tab, newline and carriage return are replaced by their numeric
character references, the null character is removed entirely, and the
text-node and attribute encodings of a field are produced independently
(`escape` vs `quoteattr`, which differ, e.g., on a newline). -/
theorem claim_C8 (c : Char) (a b : List Char) (v : String)
    (h1 : 1 ≤ c.toNat) (h2 : c.toNat ≤ 31)
    (h3 : ¬ c = '\t') (h4 : ¬ c = '\n') (h5 : ¬ c = '\r') :
    escapeL (a ++ c :: b) =
      escapeL a ++ ("&#" ++ toString c.toNat ++ ";").toList ++ escapeL b ∧
    escapeL (a ++ '\x00' :: b) = escapeL a ++ escapeL b ∧
    escaped_values v = (escape v, quoteattr v) ∧
    escape "\n" = "\n" ∧ quoteattr "\n" = "\"&#10;\"" := by
  have hamp : ¬ c = '&' := by
    intro hh; rw [hh] at h2; exact absurd h2 (by decide)
  have hgt : ¬ c = '>' := by
    intro hh; rw [hh] at h2; exact absurd h2 (by decide)
  have hlt : ¬ c = '<' := by
    intro hh; rw [hh] at h2; exact absurd h2 (by decide)
  have hz : ¬ c = '\x00' := by
    intro hh; rw [hh] at h1; exact absurd h1 (by decide)
  have hent : escEntities c = some ("&#" ++ toString c.toNat ++ ";") := by
    rw [escEntities]
    simp [hz, h1, h2, h3, h4, h5]
  have hchar : escapeChar c = "&#" ++ toString c.toNat ++ ";" := by
    rw [escapeChar]
    simp [hamp, hgt, hlt, hent]
  have hnul : escapeChar '\x00' = "" := by decide
  refine ⟨?_, ?_, rfl, by decide, by decide⟩
  · simp [escapeL, hchar]
  · simp [escapeL, hnul]

/-- C9: a check succeeds iff its outcome token is the literal `ok`;
processing a check increments `checkCount` and increments
`checkFailedCount` exactly when the token is anything else. -/
theorem claim_C9 (t : Rat) (p : WvTestProcessor) (c : WvCheckLine) :
    (is_success c = true ↔ c.result = "ok") ∧
    (_newCheck t p c).checkCount = p.checkCount + 1 ∧
    (_newCheck t p c).checkFailedCount =
      (if c.result = "ok" then p.checkFailedCount
       else p.checkFailedCount + 1) := by
  refine ⟨?_, (newCheck_spec t p c).2.2.2.2.2.1,
    (newCheck_spec t p c).2.2.2.2.2.2⟩
  rw [is_success]
  exact beq_iff_eq

/-- C10: a line of `!` followed by whitespace and a single
non-whitespace token classifies as a check with empty description and
that token as outcome — the separating whitespace is consumed — and
processing it counts one check, failed unless the token is `ok`. -/
theorem claim_C10 (w tok : List Char) (t : Rat) (p : WvTestProcessor)
    (hw : w ≠ []) (hws : ∀ c ∈ w, pyIsSpace c = true)
    (ht : tok ≠ []) (hts : ∀ c ∈ tok, pyIsSpace c = false) :
    classify (String.mk ('!' :: (w ++ tok))) =
      some (.check ⟨"", String.mk tok⟩) ∧
    (_newCheck t p ⟨"", String.mk tok⟩).checkCount = p.checkCount + 1 ∧
    (_newCheck t p ⟨"", String.mk tok⟩).checkFailedCount =
      (if String.mk tok = "ok" then p.checkFailedCount
       else p.checkFailedCount + 1) := by
  refine ⟨?_, (newCheck_spec t p _).2.2.2.2.2.1,
    (newCheck_spec t p _).2.2.2.2.2.2⟩
  have htl : (String.mk ('!' :: (w ++ tok))).toList = '!' :: (w ++ tok) :=
    rfl
  rw [classify]
  simp only [htl, checkMatch_keeps_line w tok ht hts,
    checkMatch_bang_ws_tok w tok hw hws ht hts]

/-- C1 witness: the ordinary line `hello` classifies (as a plain line). -/
theorem claim_C1_witness :
    (∃ e, classify "hello" = some e) ∧
    classify "hello" = some (.plain "hello") := by
  refine ⟨(claim_C1 "hello" 0 (initProcessor vNORMAL "" none)).1, ?_⟩
  exact (claim_C1 "hello" 0 (initProcessor vNORMAL "" none)).2.2.2.2.2
    (by decide) (by decide) (by decide)

/-- C3 witness: the Scenario A run has a finalized failing section and
exits nonzero. -/
theorem claim_C3_witness :
    (∃ ts ∈ (done 0 (runEvents (initProcessor vNORMAL ""
        (some ⟨"Preamble", "stdin"⟩)) scenarioAEvents)).junitTestsuites,
      0 < ts.failures) ∧
    ¬ exitCode (done 0 (runEvents (initProcessor vNORMAL ""
        (some ⟨"Preamble", "stdin"⟩)) scenarioAEvents)) = 0 :=
  ⟨by decide,
   (claim_C3 vNORMAL "" (some ⟨"Preamble", "stdin"⟩) scenarioAEvents 0).2
     (by decide)⟩

/-- C4 witness: instantiated at the state with one open section. -/
theorem claim_C4_witness :
    headerOnlyRun.currentTest = some ⟨"foo", "bar"⟩ ∧
    (_newTest 1 headerOnlyRun (some ⟨"x", "y"⟩)).testCount =
      headerOnlyRun.testCount + 1 ∧
    (done 1 (runEvents (initProcessor vNORMAL "" none) [])).currentTest
      = none :=
  ⟨by decide,
   (claim_C4 1 1 headerOnlyRun ⟨"x", "y"⟩ ⟨"foo", "bar"⟩ vNORMAL "" none []
     (by decide)).1,
   (claim_C4 1 1 headerOnlyRun ⟨"x", "y"⟩ ⟨"foo", "bar"⟩ vNORMAL "" none []
     (by decide)).2.2.2.2.1⟩

/-- C6 witness: a single nonblank plain line as the first event
synthesizes, is nonblank, is not a header, and has no header before it. -/
theorem claim_C6_witness :
    (synthFlags (initProcessor vNORMAL "" (some ⟨"Preamble", "stdin"⟩))
      ([] ++ ((0 : Rat), LogLine.plain "x") :: [])).count true ≤ 1 ∧
    (¬ wvStr (LogLine.plain "x") = "" ∧
      isHeader (LogLine.plain "x") = false ∧
      ∀ q ∈ ([] : List (Rat × LogLine)), isHeader q.2 = false) :=
  ⟨(claim_C6 vNORMAL "" ⟨"Preamble", "stdin"⟩ [] [] 0 (.plain "x")).1,
   (claim_C6 vNORMAL "" ⟨"Preamble", "stdin"⟩ [] [] 0 (.plain "x")).2
     (by decide)⟩

/-- C7 witness: at the concrete mid-section state (section start 2, last
check at 5), a check at time 7 records duration 2 and sets the last-check
time to 7. -/
theorem claim_C7_witness :
    ¬ timingState.lastCheckTime = some 0 ∧
    (∃ tc : Testcase,
      (_newCheck 7 timingState ⟨"c", "ok"⟩).junitTestcases =
        timingState.junitTestcases ++ [tc] ∧
      tc.time = 7 - (timingState.lastCheckTime.getD
        timingState.testStartTime)) ∧
    (_newCheck 7 timingState ⟨"c", "ok"⟩).lastCheckTime = some 7 :=
  ⟨by decide,
   (claim_C7 7 timingState ⟨"c", "ok"⟩ (by decide)).1,
   (claim_C7 7 timingState ⟨"c", "ok"⟩ (by decide)).2.1⟩

/-- C8 witness: the BEL character (0x07) inside a field is numerically
encoded, and the attribute encoding of a newline differs from its text
encoding. -/
theorem claim_C8_witness :
    (1 ≤ ('\x07').toNat ∧ ('\x07').toNat ≤ 31) ∧
    escapeL (['x'] ++ '\x07' :: ['y']) =
      escapeL ['x'] ++ ("&#" ++ toString ('\x07').toNat ++ ";").toList ++
        escapeL ['y'] ∧
    quoteattr "\n" = "\"&#10;\"" :=
  ⟨⟨by decide, by decide⟩,
   (claim_C8 '\x07' ['x'] ['y'] "v" (by decide) (by decide) (by decide)
     (by decide) (by decide)).1,
   (claim_C8 '\x07' ['x'] ['y'] "v" (by decide) (by decide) (by decide)
     (by decide) (by decide)).2.2.2.2⟩

/-- C10 witness: the line `! FAILED` classifies as a check with empty
description and outcome `FAILED`, and counts as one failed check. -/
theorem claim_C10_witness :
    classify (String.mk ('!' :: ([' '] ++ ['F', 'A', 'I', 'L', 'E', 'D'])))
      = some (.check ⟨"", String.mk ['F', 'A', 'I', 'L', 'E', 'D']⟩) ∧
    (_newCheck 0 (initProcessor vNORMAL "" none)
        ⟨"", String.mk ['F', 'A', 'I', 'L', 'E', 'D']⟩).checkFailedCount =
      (if String.mk ['F', 'A', 'I', 'L', 'E', 'D'] = "ok" then
        (initProcessor vNORMAL "" none).checkFailedCount
       else (initProcessor vNORMAL "" none).checkFailedCount + 1) :=
  ⟨(claim_C10 [' '] ['F', 'A', 'I', 'L', 'E', 'D'] 0
      (initProcessor vNORMAL "" none) (by decide) (by decide) (by decide)
      (by decide)).1,
   (claim_C10 [' '] ['F', 'A', 'I', 'L', 'E', 'D'] 0
      (initProcessor vNORMAL "" none) (by decide) (by decide) (by decide)
      (by decide)).2.2⟩

end WvTest
